import Mathlib

/-!  Verification of the UV-sphere generator and serializer of TestMetal
     (src/TestMetal/create_sphere_fbx.py and src/TestMetal/generate_sphere.py).
     Python floats are modelled as real numbers: math.sin, math.cos, math.pi and
     math.sqrt become Real.sin, Real.cos, Real.pi and Real.sqrt; Python lists
     built by repeated `extend` become List.foldl with list append.  -/

/-- Embedding of `generate_sphere` (create_sphere_fbx.py lines 4-37; the copy in
generate_sphere.py lines 4-37 is identical apart from default arguments).
The two accumulator loops (`vertices.extend([x, y, z])` and
`indices.extend([...])` inside nested `for ... in range(...)`) become nested
`List.foldl` over `List.range` with append. -/
noncomputable def generate_sphere (radius : ℝ) (latitude_segments longitude_segments : ℕ) :
    List ℝ × List ℕ :=
  let vertices :=
    (List.range (latitude_segments + 1)).foldl (fun vs (lat : ℕ) =>
      let theta : ℝ := (lat : ℝ) * Real.pi / (latitude_segments : ℝ)
      (List.range (longitude_segments + 1)).foldl (fun vs2 (lon : ℕ) =>
        let phi : ℝ := (lon : ℝ) * 2 * Real.pi / (longitude_segments : ℝ)
        let x := radius * Real.cos phi * Real.sin theta
        let y := radius * Real.cos theta
        let z := radius * Real.sin phi * Real.sin theta
        vs2 ++ [x, y, z]) vs) []
  let indices :=
    (List.range latitude_segments).foldl (fun idx (lat : ℕ) =>
      (List.range longitude_segments).foldl (fun idx2 (lon : ℕ) =>
        let first := lat * (longitude_segments + 1) + lon
        let second := first + longitude_segments + 1
        idx2 ++ [first, second, first + 1] ++ [second, second + 1, first + 1]) idx) []
  (vertices, indices)

/-- The vertex the inner loop body of `generate_sphere` produces for grid
position `(lat, lon)`, as an (x, y, z) triple. -/
noncomputable def vertexAt (radius : ℝ) (L N lat lon : ℕ) : ℝ × ℝ × ℝ :=
  let theta : ℝ := (lat : ℝ) * Real.pi / (L : ℝ)
  let phi : ℝ := (lon : ℝ) * 2 * Real.pi / (N : ℝ)
  (radius * Real.cos phi * Real.sin theta,
   radius * Real.cos theta,
   radius * Real.sin phi * Real.sin theta)

/-- The vertex grid of `generate_sphere` in emission order, one triple per
(lat, lon) sample. -/
noncomputable def sphereVertexTriples (radius : ℝ) (L N : ℕ) : List (ℝ × ℝ × ℝ) :=
  (List.range (L + 1)).bind fun lat =>
    (List.range (N + 1)).map fun lon => vertexAt radius L N lat lon

/-- Modelled from the spec's words (section 4.1 step 4) for the refinement
comparison with the index loop of `generate_sphere`: for each `lat` in
`[0, L)` and `lon` in `[0, N)`, with `first = lat*(N+1) + lon` and
`second = first + N + 1`, emit the triangle `(first, second, first+1)` and
then the triangle `(second, second+1, first+1)`. -/
def sphereIndicesSpec (L N : ℕ) : List ℕ :=
  (List.range L).bind fun lat =>
    (List.range N).bind fun lon =>
      let first := lat * (N + 1) + lon
      let second := first + N + 1
      [first, second, first + 1] ++ [second, second + 1, first + 1]

/-! ### Generic list helpers -/

theorem foldl_append_eq_bind {α β : Type} (f : α → List β) :
    ∀ (l : List α) (acc : List β),
      l.foldl (fun a x => a ++ f x) acc = acc ++ l.bind f := by
  intro l
  induction l with
  | nil => intro acc; simp
  | cons x xs ih => intro acc; simp [ih, List.append_assoc]

theorem length_bind_const {α β : Type} (b : ℕ) :
    ∀ (l : List α) (g : α → List β), (∀ x ∈ l, (g x).length = b) →
      (l.bind g).length = l.length * b := by
  intro l
  induction l with
  | nil => intro g _; simp
  | cons x xs ih =>
      intro g h
      have hx := h x (List.mem_cons_self x xs)
      have hr := ih g (fun y hy => h y (List.mem_cons_of_mem x hy))
      simp [List.cons_bind, hx, hr, Nat.succ_mul]
      omega

theorem get?_bind_uniform {α β : Type} (b : ℕ) :
    ∀ (l : List α) (g : α → List β), (∀ x ∈ l, (g x).length = b) →
      ∀ i j (hi : i < l.length), j < b →
        (l.bind g).get? (i * b + j) = (g (l.get ⟨i, hi⟩)).get? j := by
  intro l
  induction l with
  | nil => intro g _ i j hi _; simp at hi
  | cons x xs ih =>
      intro g h i j hi hj
      cases i with
      | zero =>
          have hx : (g x).length = b := h x (List.mem_cons_self x xs)
          simp only [List.cons_bind, Nat.zero_mul, Nat.zero_add]
          rw [List.get?_append (by omega)]
          rfl
      | succ i' =>
          have hx : (g x).length = b := h x (List.mem_cons_self x xs)
          have hlen : (g x).length ≤ (i' + 1) * b + j := by
            have : b ≤ (i' + 1) * b := by
              calc b = 1 * b := (Nat.one_mul b).symm
              _ ≤ (i' + 1) * b := Nat.mul_le_mul_right b (by omega)
            omega
          simp only [List.cons_bind]
          rw [List.get?_append_right hlen]
          have harith : (i' + 1) * b + j - (g x).length = i' * b + j := by
            rw [hx]; rw [Nat.succ_mul]; omega
          rw [harith]
          have hi' : i' < xs.length := by
            simp only [List.length_cons] at hi; omega
          have hr := ih g (fun y hy => h y (List.mem_cons_of_mem x hy)) i' j hi' hj
          rw [hr]
          rfl

/-! ### Bridging the source loops to their declarative forms -/

theorem bind_map_eq {α β γ : Type} (g : α → β) (f : β → List γ) (l : List α) :
    (l.map g).bind f = l.bind (fun a => f (g a)) := by
  induction l with
  | nil => simp
  | cons x xs ih => simp [ih]

theorem generate_sphere_fst (radius : ℝ) (L N : ℕ) :
    (generate_sphere radius L N).1 =
      (sphereVertexTriples radius L N).bind fun p => [p.1, p.2.1, p.2.2] := by
  have h1 : (generate_sphere radius L N).1 =
      (List.range (L + 1)).foldl (fun vs (lat : ℕ) =>
        (List.range (N + 1)).foldl (fun vs2 (lon : ℕ) =>
          vs2 ++ [(vertexAt radius L N lat lon).1,
                  (vertexAt radius L N lat lon).2.1,
                  (vertexAt radius L N lat lon).2.2]) vs) [] := rfl
  rw [h1]
  have hinner : ∀ (lat : ℕ) (acc : List ℝ),
      (List.range (N + 1)).foldl (fun vs2 (lon : ℕ) =>
        vs2 ++ [(vertexAt radius L N lat lon).1,
                (vertexAt radius L N lat lon).2.1,
                (vertexAt radius L N lat lon).2.2]) acc
      = acc ++ (List.range (N + 1)).bind (fun lon =>
          [(vertexAt radius L N lat lon).1,
           (vertexAt radius L N lat lon).2.1,
           (vertexAt radius L N lat lon).2.2]) := by
    intro lat acc
    exact foldl_append_eq_bind _ _ acc
  have houter : (List.range (L + 1)).foldl (fun vs (lat : ℕ) =>
      vs ++ (List.range (N + 1)).bind (fun lon =>
        [(vertexAt radius L N lat lon).1,
         (vertexAt radius L N lat lon).2.1,
         (vertexAt radius L N lat lon).2.2])) []
      = [] ++ (List.range (L + 1)).bind (fun lat =>
          (List.range (N + 1)).bind (fun lon =>
            [(vertexAt radius L N lat lon).1,
             (vertexAt radius L N lat lon).2.1,
             (vertexAt radius L N lat lon).2.2])) :=
    foldl_append_eq_bind _ _ []
  calc (List.range (L + 1)).foldl (fun vs (lat : ℕ) =>
        (List.range (N + 1)).foldl (fun vs2 (lon : ℕ) =>
          vs2 ++ [(vertexAt radius L N lat lon).1,
                  (vertexAt radius L N lat lon).2.1,
                  (vertexAt radius L N lat lon).2.2]) vs) []
      = (List.range (L + 1)).foldl (fun vs (lat : ℕ) =>
          vs ++ (List.range (N + 1)).bind (fun lon =>
            [(vertexAt radius L N lat lon).1,
             (vertexAt radius L N lat lon).2.1,
             (vertexAt radius L N lat lon).2.2])) [] := by
        apply List.foldl_ext
        intro acc lat _
        exact hinner lat acc
    _ = (sphereVertexTriples radius L N).bind fun p => [p.1, p.2.1, p.2.2] := by
        rw [houter]
        simp only [List.nil_append, sphereVertexTriples, List.bind_assoc, bind_map_eq]

theorem generate_sphere_snd (radius : ℝ) (L N : ℕ) :
    (generate_sphere radius L N).2 = sphereIndicesSpec L N := by
  have h1 : (generate_sphere radius L N).2 =
      (List.range L).foldl (fun idx (lat : ℕ) =>
        (List.range N).foldl (fun idx2 (lon : ℕ) =>
          let first := lat * (N + 1) + lon
          let second := first + N + 1
          idx2 ++ [first, second, first + 1] ++ [second, second + 1, first + 1]) idx) [] := rfl
  rw [h1]
  have hinner : ∀ (lat : ℕ) (acc : List ℕ),
      (List.range N).foldl (fun idx2 (lon : ℕ) =>
        let first := lat * (N + 1) + lon
        let second := first + N + 1
        idx2 ++ [first, second, first + 1] ++ [second, second + 1, first + 1]) acc
      = acc ++ (List.range N).bind (fun lon =>
          let first := lat * (N + 1) + lon
          let second := first + N + 1
          [first, second, first + 1] ++ [second, second + 1, first + 1]) := by
    intro lat acc
    have := foldl_append_eq_bind (fun lon =>
      let first := lat * (N + 1) + lon
      let second := first + N + 1
      [first, second, first + 1] ++ [second, second + 1, first + 1]) (List.range N) acc
    rw [← this]
    apply List.foldl_ext
    intro a lon _
    simp [List.append_assoc]
  calc (List.range L).foldl (fun idx (lat : ℕ) =>
        (List.range N).foldl (fun idx2 (lon : ℕ) =>
          let first := lat * (N + 1) + lon
          let second := first + N + 1
          idx2 ++ [first, second, first + 1] ++ [second, second + 1, first + 1]) idx) []
      = (List.range L).foldl (fun idx (lat : ℕ) =>
          idx ++ (List.range N).bind (fun lon =>
            let first := lat * (N + 1) + lon
            let second := first + N + 1
            [first, second, first + 1] ++ [second, second + 1, first + 1])) [] := by
        apply List.foldl_ext
        intro acc lat _
        exact hinner lat acc
    _ = sphereIndicesSpec L N := by
        rw [foldl_append_eq_bind]
        rfl

/-! ### Lengths -/

theorem length_sphereVertexTriples (radius : ℝ) (L N : ℕ) :
    (sphereVertexTriples radius L N).length = (L + 1) * (N + 1) := by
  unfold sphereVertexTriples
  rw [length_bind_const (N + 1)]
  · simp
  · intro x _; simp

theorem length_generate_sphere_fst (radius : ℝ) (L N : ℕ) :
    (generate_sphere radius L N).1.length = 3 * ((L + 1) * (N + 1)) := by
  rw [generate_sphere_fst]
  rw [length_bind_const 3 _ _ (by intro x _; rfl)]
  rw [length_sphereVertexTriples]
  ring

theorem length_sphereIndicesSpec (L N : ℕ) :
    (sphereIndicesSpec L N).length = L * N * 6 := by
  unfold sphereIndicesSpec
  rw [length_bind_const (N * 6)]
  · simp [Nat.mul_assoc]
  · intro x _
    rw [length_bind_const 6 _ _ (by intro y _; rfl)]
    simp [Nat.mul_comm]

theorem length_generate_sphere_snd (radius : ℝ) (L N : ℕ) :
    (generate_sphere radius L N).2.length = L * N * 6 := by
  rw [generate_sphere_snd, length_sphereIndicesSpec]

/-- Claim C1: for every radius r > 0 and segment counts L ≥ 1 and N ≥ 1,
`generate_sphere` produces exactly (L+1)*(N+1) vertices — a flat coordinate
list of length 3*(L+1)*(N+1) — and exactly L*N*6 indices. -/
theorem spec_C1_counts (radius : ℝ) (L N : ℕ)
    (hr : 0 < radius) (hL : 1 ≤ L) (hN : 1 ≤ N) :
    (generate_sphere radius L N).1.length = 3 * ((L + 1) * (N + 1)) ∧
    (generate_sphere radius L N).2.length = L * N * 6 :=
  ⟨length_generate_sphere_fst radius L N, length_generate_sphere_snd radius L N⟩

/-- Witness for C1 at radius 1, L = 1, N = 1: 12 coordinates, 6 indices. -/
theorem spec_C1_counts_witness :
    (generate_sphere 1 1 1).1.length = 3 * ((1 + 1) * (1 + 1)) ∧
    (generate_sphere 1 1 1).2.length = 1 * 1 * 6 :=
  spec_C1_counts 1 1 1 (by norm_num) (by omega) (by omega)

/-! ### Index bounds (claims C2, C3) -/

theorem mem_sphereIndicesSpec_le (L N : ℕ) :
    ∀ i ∈ sphereIndicesSpec L N, i ≤ L * (N + 1) + N := by
  intro i hi
  simp only [sphereIndicesSpec, List.mem_bind, List.mem_range, List.mem_append,
    List.mem_cons, List.not_mem_nil, or_false] at hi
  obtain ⟨lat, hlat, lon, hlon, hcase⟩ := hi
  have h1 : (lat + 1) * (N + 1) ≤ L * (N + 1) := Nat.mul_le_mul_right _ (by omega)
  have h2 : (lat + 1) * (N + 1) = lat * (N + 1) + (N + 1) := by ring
  rcases hcase with h | h | h | h | h | h <;> omega

theorem max_mem_sphereIndicesSpec (L N : ℕ) (hL : 1 ≤ L) (hN : 1 ≤ N) :
    L * (N + 1) + N ∈ sphereIndicesSpec L N := by
  obtain ⟨l, rfl⟩ : ∃ l, L = l + 1 := ⟨L - 1, by omega⟩
  obtain ⟨n, rfl⟩ : ∃ n, N = n + 1 := ⟨N - 1, by omega⟩
  simp only [sphereIndicesSpec, List.mem_bind, List.mem_range]
  refine ⟨l, by omega, n, by omega, ?_⟩
  exact List.mem_append.mpr (Or.inr (List.mem_cons.mpr (Or.inr
    (List.mem_cons.mpr (Or.inl (by ring))))))

/-- Claim C2: for every L ≥ 1 and N ≥ 1, every index emitted by
`generate_sphere` lies in [0, vertex_count) with
vertex_count = (L+1)*(N+1); in particular the largest emitted index is
L*(N+1) + N (that is, L*(N+1) + N - 1 + 1), which is < (L+1)*(N+1). -/
theorem spec_C2_index_range (radius : ℝ) (L N : ℕ) (hL : 1 ≤ L) (hN : 1 ≤ N) :
    (∀ i ∈ (generate_sphere radius L N).2, i < (L + 1) * (N + 1)) ∧
    (∀ i ∈ (generate_sphere radius L N).2, i ≤ L * (N + 1) + N) ∧
    L * (N + 1) + N ∈ (generate_sphere radius L N).2 ∧
    L * (N + 1) + N < (L + 1) * (N + 1) := by
  have hexp : (L + 1) * (N + 1) = L * (N + 1) + (N + 1) := by ring
  rw [generate_sphere_snd]
  refine ⟨?_, mem_sphereIndicesSpec_le L N, max_mem_sphereIndicesSpec L N hL hN, by omega⟩
  intro i hi
  have := mem_sphereIndicesSpec_le L N i hi
  omega

/-- Witness for C2 at radius 1, L = 1, N = 1, instantiated at the emitted
index 3. -/
theorem spec_C2_index_range_witness :
    (3 : ℕ) < (1 + 1) * (1 + 1) ∧ (3 : ℕ) ≤ 1 * (1 + 1) + 1 ∧
    1 * (1 + 1) + 1 ∈ (generate_sphere 1 1 1).2 ∧
    1 * (1 + 1) + 1 < (1 + 1) * (1 + 1) := by
  have h := spec_C2_index_range 1 1 1 (by omega) (by omega)
  exact ⟨h.1 3 (by decide), h.2.1 3 (by decide), h.2.2.1, h.2.2.2⟩

/-- Claim C3: for every L ≥ 1 and N ≥ 1 the index list of `generate_sphere`
is exactly the concatenation, for lat in [0, L) (outer loop) and lon in
[0, N) (inner loop), of the triangle (first, second, first+1) followed by
the triangle (second, second+1, first+1), where first = lat*(N+1) + lon and
second = first + N + 1; equivalently, the six entries of the cell (lat, lon)
start at position 6*(lat*N + lon). -/
theorem spec_C3_cell_order (radius : ℝ) (L N : ℕ) (hL : 1 ≤ L) (hN : 1 ≤ N) :
    (generate_sphere radius L N).2 = sphereIndicesSpec L N ∧
    ∀ lat lon pos, lat < L → lon < N → pos < 6 →
      (generate_sphere radius L N).2.get? (6 * (lat * N + lon) + pos) =
        [lat * (N + 1) + lon, lat * (N + 1) + lon + N + 1, lat * (N + 1) + lon + 1,
         lat * (N + 1) + lon + N + 1, lat * (N + 1) + lon + N + 1 + 1,
         lat * (N + 1) + lon + 1].get? pos := by
  refine ⟨generate_sphere_snd radius L N, ?_⟩
  intro lat lon pos hlat hlon hpos
  rw [generate_sphere_snd]
  have harith : 6 * (lat * N + lon) + pos = lat * (N * 6) + (lon * 6 + pos) := by ring
  rw [harith]
  unfold sphereIndicesSpec
  have hlen : ∀ x ∈ List.range L,
      ((List.range N).bind (fun lon =>
        let first := x * (N + 1) + lon
        let second := first + N + 1
        [first, second, first + 1] ++ [second, second + 1, first + 1])).length = N * 6 := by
    intro x _
    rw [length_bind_const 6 _ _ (by intro y _; rfl)]
    simp
  rw [get?_bind_uniform (N * 6) _ _ hlen lat (lon * 6 + pos) (by simpa using hlat) (by omega)]
  have hget : (List.range L).get ⟨lat, by simpa using hlat⟩ = lat := List.get_range _ _
  rw [hget]
  rw [get?_bind_uniform 6 _ _ (by intro y _; rfl) lon pos (by simpa using hlon) hpos]
  have hget2 : (List.range N).get ⟨lon, by simpa using hlon⟩ = lon := List.get_range _ _
  rw [hget2]
  rfl

/-- Witness for C3 at radius 1, L = 1, N = 1, instantiated at the cell
(0, 0), entry position 1 (the index `second`). -/
theorem spec_C3_cell_order_witness :
    (generate_sphere 1 1 1).2 = sphereIndicesSpec 1 1 ∧
    (generate_sphere 1 1 1).2.get? (6 * (0 * 1 + 0) + 1) =
      [0 * (1 + 1) + 0, 0 * (1 + 1) + 0 + 1 + 1, 0 * (1 + 1) + 0 + 1,
       0 * (1 + 1) + 0 + 1 + 1, 0 * (1 + 1) + 0 + 1 + 1 + 1,
       0 * (1 + 1) + 0 + 1].get? 1 := by
  have h := spec_C3_cell_order 1 1 1 (by omega) (by omega)
  exact ⟨h.1, h.2 0 0 1 (by omega) (by omega) (by omega)⟩

/-! ### Vertex layout (claim C4) -/

theorem get?_bind_uniform_some {α β : Type} (b : ℕ) (l : List α) (g : α → List β)
    (h : ∀ x ∈ l, (g x).length = b) (i j : ℕ) (hj : j < b) (x : α)
    (hx : l.get? i = some x) :
    (l.bind g).get? (i * b + j) = (g x).get? j := by
  obtain ⟨hi, hget⟩ := List.get?_eq_some.mp hx
  rw [get?_bind_uniform b l g h i j hi hj, hget]

theorem cell_lt {L N lat lon : ℕ} (hlat : lat ≤ L) (hlon : lon ≤ N) :
    lat * (N + 1) + lon < (L + 1) * (N + 1) := by
  have h1 : (lat + 1) * (N + 1) ≤ (L + 1) * (N + 1) := Nat.mul_le_mul_right _ (by omega)
  have h2 : (lat + 1) * (N + 1) = lat * (N + 1) + (N + 1) := by ring
  omega

theorem get?_sphereVertexTriples (radius : ℝ) (L N lat lon : ℕ)
    (hlat : lat ≤ L) (hlon : lon ≤ N) :
    (sphereVertexTriples radius L N).get? (lat * (N + 1) + lon) =
      some (vertexAt radius L N lat lon) := by
  unfold sphereVertexTriples
  rw [get?_bind_uniform_some (N + 1) _ _ (by intro x _; simp) lat lon (by omega) lat
    (List.get?_range (by omega))]
  rw [List.get?_map, List.get?_range (by omega)]
  rfl

/-- Claim C4: the vertex of grid position (lat, lon) has the spherical
coordinates x = r sin(theta) cos(phi), y = r cos(theta),
z = r sin(theta) sin(phi) with theta = lat*pi/L and phi = lon*2*pi/N, and
vertices are emitted lat-major / lon-minor, so this vertex occupies flat-list
offset 3*(lat*(N+1) + lon). -/
theorem spec_C4_vertex_layout (radius : ℝ) (L N lat lon : ℕ)
    (hL : 1 ≤ L) (hN : 1 ≤ N) (hlat : lat ≤ L) (hlon : lon ≤ N) :
    (generate_sphere radius L N).1.get? (3 * (lat * (N + 1) + lon)) =
      some (radius * Real.sin ((lat : ℝ) * Real.pi / (L : ℝ)) *
              Real.cos ((lon : ℝ) * 2 * Real.pi / (N : ℝ))) ∧
    (generate_sphere radius L N).1.get? (3 * (lat * (N + 1) + lon) + 1) =
      some (radius * Real.cos ((lat : ℝ) * Real.pi / (L : ℝ))) ∧
    (generate_sphere radius L N).1.get? (3 * (lat * (N + 1) + lon) + 2) =
      some (radius * Real.sin ((lat : ℝ) * Real.pi / (L : ℝ)) *
              Real.sin ((lon : ℝ) * 2 * Real.pi / (N : ℝ))) := by
  have htrip := get?_sphereVertexTriples radius L N lat lon hlat hlon
  refine ⟨?_, ?_, ?_⟩
  · rw [generate_sphere_fst]
    have h0 : 3 * (lat * (N + 1) + lon) = (lat * (N + 1) + lon) * 3 + 0 := by ring
    rw [h0, get?_bind_uniform_some 3 _ _ (by intro x _; rfl) _ 0 (by omega) _ htrip]
    exact congrArg some (by show radius * Real.cos _ * Real.sin _ = _; ring)
  · rw [generate_sphere_fst]
    have h0 : 3 * (lat * (N + 1) + lon) + 1 = (lat * (N + 1) + lon) * 3 + 1 := by ring
    rw [h0, get?_bind_uniform_some 3 _ _ (by intro x _; rfl) _ 1 (by omega) _ htrip]
    rfl
  · rw [generate_sphere_fst]
    have h0 : 3 * (lat * (N + 1) + lon) + 2 = (lat * (N + 1) + lon) * 3 + 2 := by ring
    rw [h0, get?_bind_uniform_some 3 _ _ (by intro x _; rfl) _ 2 (by omega) _ htrip]
    exact congrArg some (by show radius * Real.sin _ * Real.sin _ = _; ring)

/-- Witness for C4 at radius 1, L = 1, N = 1, lat = 0, lon = 0 (north pole). -/
theorem spec_C4_vertex_layout_witness :
    (generate_sphere 1 1 1).1.get? (3 * (0 * (1 + 1) + 0)) =
      some (1 * Real.sin ((0 : ℕ) * Real.pi / (1 : ℕ)) *
              Real.cos ((0 : ℕ) * 2 * Real.pi / (1 : ℕ))) ∧
    (generate_sphere 1 1 1).1.get? (3 * (0 * (1 + 1) + 0) + 1) =
      some (1 * Real.cos ((0 : ℕ) * Real.pi / (1 : ℕ))) ∧
    (generate_sphere 1 1 1).1.get? (3 * (0 * (1 + 1) + 0) + 2) =
      some (1 * Real.sin ((0 : ℕ) * Real.pi / (1 : ℕ)) *
              Real.sin ((0 : ℕ) * 2 * Real.pi / (1 : ℕ))) :=
  spec_C4_vertex_layout 1 1 1 0 0 (by omega) (by omega) (by omega) (by omega)

/-! ### Vertex norms and the normals block (claims C5, C8) -/

/-- The length computation of the normals block
(create_sphere_fbx.py line 201): `math.sqrt(x*x + y*y + z*z)`. -/
noncomputable def len3 (v : ℝ × ℝ × ℝ) : ℝ :=
  Real.sqrt (v.1 * v.1 + v.2.1 * v.2.1 + v.2.2 * v.2.2)

/-- The per-vertex normalization of the normals block (create_sphere_fbx.py
lines 200-204): divide each component by the length when the length is
positive, keep the raw components unchanged otherwise. -/
noncomputable def normalize3 (v : ℝ × ℝ × ℝ) : ℝ × ℝ × ℝ :=
  let length := len3 v
  if 0 < length then (v.1 / length, v.2.1 / length, v.2.2 / length) else v

/-- Grouping of a flat coordinate list into consecutive triples, modelling the
serializer's `for i in range(0, len(vertices), 3)` reads of elements i, i+1,
i+2 (every flat list the program serializes has length divisible by 3). -/
def chunk3 {α : Type} : List α → List (α × α × α)
  | a :: b :: c :: rest => (a, b, c) :: chunk3 rest
  | _ => []

/-- The normals the serializer derives from the generated vertices
(create_sphere_fbx.py lines 198-204). -/
noncomputable def sphereNormals (radius : ℝ) (L N : ℕ) : List (ℝ × ℝ × ℝ) :=
  (chunk3 (generate_sphere radius L N).1).map normalize3

theorem chunk3_flatTriples {α : Type} :
    ∀ l : List (α × α × α), chunk3 (l.bind fun p => [p.1, p.2.1, p.2.2]) = l
  | [] => rfl
  | p :: rest => by
      simp only [List.cons_bind, List.cons_append, List.nil_append]
      show (p.1, p.2.1, p.2.2) :: chunk3 (rest.bind fun p => [p.1, p.2.1, p.2.2]) = p :: rest
      rw [chunk3_flatTriples rest]

theorem chunk3_generate_sphere (radius : ℝ) (L N : ℕ) :
    chunk3 (generate_sphere radius L N).1 = sphereVertexTriples radius L N := by
  rw [generate_sphere_fst]
  exact chunk3_flatTriples _

theorem mem_sphereVertexTriples {radius : ℝ} {L N : ℕ} {p : ℝ × ℝ × ℝ}
    (hp : p ∈ sphereVertexTriples radius L N) :
    ∃ lat lon, lat ≤ L ∧ lon ≤ N ∧ p = vertexAt radius L N lat lon := by
  simp only [sphereVertexTriples, List.mem_bind, List.mem_map, List.mem_range] at hp
  obtain ⟨lat, hlat, lon, hlon, heq⟩ := hp
  exact ⟨lat, lon, by omega, by omega, heq.symm⟩

theorem sumsq_vertexAt (radius : ℝ) (L N lat lon : ℕ) :
    (vertexAt radius L N lat lon).1 * (vertexAt radius L N lat lon).1 +
    (vertexAt radius L N lat lon).2.1 * (vertexAt radius L N lat lon).2.1 +
    (vertexAt radius L N lat lon).2.2 * (vertexAt radius L N lat lon).2.2 =
      radius ^ 2 := by
  have h1 := Real.sin_sq_add_cos_sq ((lat : ℝ) * Real.pi / (L : ℝ))
  have h2 := Real.sin_sq_add_cos_sq ((lon : ℝ) * 2 * Real.pi / (N : ℝ))
  simp only [vertexAt]
  linear_combination (radius ^ 2 * Real.sin ((lat : ℝ) * Real.pi / (L : ℝ)) ^ 2) * h2 +
    radius ^ 2 * h1

theorem len3_vertexAt (radius : ℝ) (L N lat lon : ℕ) :
    len3 (vertexAt radius L N lat lon) = |radius| := by
  unfold len3
  rw [sumsq_vertexAt]
  exact Real.sqrt_sq_eq_abs radius

theorem len3_normalize3_eq_one (v : ℝ × ℝ × ℝ) (r : ℝ) (hr : 0 < r)
    (hsum : v.1 * v.1 + v.2.1 * v.2.1 + v.2.2 * v.2.2 = r ^ 2) :
    len3 (normalize3 v) = 1 := by
  have hlen : len3 v = r := by
    unfold len3; rw [hsum]; exact Real.sqrt_sq hr.le
  have hpos : 0 < len3 v := by rw [hlen]; exact hr
  unfold normalize3
  rw [if_pos hpos, hlen]
  unfold len3
  have hone : v.1 / r * (v.1 / r) + v.2.1 / r * (v.2.1 / r) + v.2.2 / r * (v.2.2 / r) = 1 := by
    field_simp
    linear_combination hsum
  show Real.sqrt (v.1 / r * (v.1 / r) + v.2.1 / r * (v.2.1 / r) + v.2.2 / r * (v.2.2 / r)) = 1
  rw [hone, Real.sqrt_one]

theorem normalize3_zero : normalize3 (0, 0, 0) = ((0 : ℝ), (0 : ℝ), (0 : ℝ)) := by
  unfold normalize3 len3
  norm_num

theorem vertexAt_zero_radius (L N lat lon : ℕ) :
    vertexAt 0 L N lat lon = ((0 : ℝ), (0 : ℝ), (0 : ℝ)) := by
  simp [vertexAt]

/-- Claim C5: every serialized normal is the corresponding vertex position
divided by its Euclidean length when that length is positive, and the
unchanged zero vector when the length is 0 (never dividing by zero); hence
for radius > 0 every normal is a unit vector and for radius 0 every normal
is the zero vector.  The last conjunct covers generate_sphere.py, whose
normals block reprints the raw vertices: at its hardcoded invocation
(radius 1, 16, 32) those coincide with the normalized positions. -/
theorem spec_C5_normals (radius : ℝ) (L N : ℕ) (hL : 1 ≤ L) (hN : 1 ≤ N) :
    (∀ v ∈ chunk3 (generate_sphere radius L N).1,
        (0 < len3 v → normalize3 v = (v.1 / len3 v, v.2.1 / len3 v, v.2.2 / len3 v)) ∧
        (len3 v = 0 → normalize3 v = v ∧ v = (0, 0, 0))) ∧
    (0 < radius → ∀ n ∈ sphereNormals radius L N, len3 n = 1) ∧
    (radius = 0 → ∀ n ∈ sphereNormals radius L N, n = (0, 0, 0)) ∧
    (∀ v ∈ chunk3 (generate_sphere 1 16 32).1, normalize3 v = v) := by
  refine ⟨?_, ?_, ?_, ?_⟩
  · intro v hv
    rw [chunk3_generate_sphere] at hv
    obtain ⟨lat, lon, hlat, hlon, rfl⟩ := mem_sphereVertexTriples hv
    constructor
    · intro hpos
      unfold normalize3
      rw [if_pos hpos]
    · intro h0
      have habs : |radius| = 0 := (len3_vertexAt radius L N lat lon).symm.trans h0
      have hr0 : radius = 0 := abs_eq_zero.mp habs
      subst hr0
      rw [vertexAt_zero_radius]
      exact ⟨normalize3_zero, rfl⟩
  · intro hr n hn
    unfold sphereNormals at hn
    rw [chunk3_generate_sphere] at hn
    obtain ⟨v, hv, rfl⟩ := List.mem_map.mp hn
    obtain ⟨lat, lon, hlat, hlon, rfl⟩ := mem_sphereVertexTriples hv
    exact len3_normalize3_eq_one _ radius hr (sumsq_vertexAt radius L N lat lon)
  · intro hr0 n hn
    subst hr0
    unfold sphereNormals at hn
    rw [chunk3_generate_sphere] at hn
    obtain ⟨v, hv, rfl⟩ := List.mem_map.mp hn
    obtain ⟨lat, lon, hlat, hlon, rfl⟩ := mem_sphereVertexTriples hv
    rw [vertexAt_zero_radius]
    exact normalize3_zero
  · intro v hv
    rw [chunk3_generate_sphere] at hv
    obtain ⟨lat, lon, hlat, hlon, rfl⟩ := mem_sphereVertexTriples hv
    have hlen : len3 (vertexAt 1 16 32 lat lon) = 1 := by
      rw [len3_vertexAt]; norm_num
    unfold normalize3
    rw [if_pos (by rw [hlen]; norm_num), hlen]
    simp

theorem vertexAt_mem_chunk3 (radius : ℝ) (L N : ℕ) :
    vertexAt radius L N 0 0 ∈ chunk3 (generate_sphere radius L N).1 := by
  rw [chunk3_generate_sphere]
  exact List.mem_bind.mpr ⟨0, by simp, List.mem_map.mpr ⟨0, by simp, rfl⟩⟩

/-- Witness for C5, instantiated at the vertex (lat, lon) = (0, 0) of the
spheres of radius 1 (normalization and unit length), radius 0 (zero vector)
and the generate_sphere.py invocation radius 1, L = 16, N = 32. -/
theorem spec_C5_normals_witness :
    normalize3 (vertexAt 1 1 1 0 0) =
      ((vertexAt 1 1 1 0 0).1 / len3 (vertexAt 1 1 1 0 0),
       (vertexAt 1 1 1 0 0).2.1 / len3 (vertexAt 1 1 1 0 0),
       (vertexAt 1 1 1 0 0).2.2 / len3 (vertexAt 1 1 1 0 0)) ∧
    len3 (normalize3 (vertexAt 1 1 1 0 0)) = 1 ∧
    normalize3 (vertexAt 0 1 1 0 0) = (0, 0, 0) ∧
    normalize3 (vertexAt 1 16 32 0 0) = vertexAt 1 16 32 0 0 := by
  have h1 := spec_C5_normals 1 1 1 (by omega) (by omega)
  have h0 := spec_C5_normals 0 1 1 (by omega) (by omega)
  have hpos : (0 : ℝ) < len3 (vertexAt 1 1 1 0 0) := by
    rw [len3_vertexAt]; norm_num
  refine ⟨(h1.1 _ (vertexAt_mem_chunk3 1 1 1)).1 hpos, ?_, ?_, ?_⟩
  · exact h1.2.1 (by norm_num) _ (List.mem_map_of_mem _ (vertexAt_mem_chunk3 1 1 1))
  · exact h0.2.2.1 rfl _ (List.mem_map_of_mem _ (vertexAt_mem_chunk3 0 1 1))
  · exact h1.2.2.2 _ (vertexAt_mem_chunk3 1 16 32)

/-- Claim C8: for radius > 0 and valid segment counts, every emitted vertex
triple has Euclidean norm exactly equal to the radius in the real-number
model, hence within the 1e-6 floating-point tolerance the spec allows. -/
theorem spec_C8_vertex_norm (radius : ℝ) (L N : ℕ)
    (hr : 0 < radius) (hL : 1 ≤ L) (hN : 1 ≤ N) :
    ∀ v ∈ chunk3 (generate_sphere radius L N).1,
      len3 v = radius ∧ |len3 v - radius| ≤ 1 / 1000000 := by
  intro v hv
  rw [chunk3_generate_sphere] at hv
  obtain ⟨lat, lon, hlat, hlon, rfl⟩ := mem_sphereVertexTriples hv
  have hlen : len3 (vertexAt radius L N lat lon) = radius := by
    rw [len3_vertexAt]; exact abs_of_pos hr
  refine ⟨hlen, ?_⟩
  rw [hlen, sub_self, abs_zero]
  norm_num

/-- Witness for C8 at radius 1, L = 1, N = 1, instantiated at the emitted
vertex (lat, lon) = (0, 0). -/
theorem spec_C8_vertex_norm_witness :
    len3 (vertexAt 1 1 1 0 0) = 1 ∧ |len3 (vertexAt 1 1 1 0 0) - 1| ≤ 1 / 1000000 :=
  spec_C8_vertex_norm 1 1 1 (by norm_num) (by omega) (by omega) _
    (vertexAt_mem_chunk3 1 1 1)

/-! ### Serializer: numeric rendering and the geometry block (claims C6, C9)

Python strings are modelled as their character lists.  `str(i)` on a
nonnegative int becomes `natDec`; the fixed-point format `f"{x:.6f}"` becomes
`fmt6`: the value scaled by 10^6 and rounded to an integer, rendered as an
optional sign, the decimal integer part, a dot and exactly six fractional
digits (Mathlib's `round` approximates Python's tie-breaking, which is
irrelevant to the structural formatting properties proved here). -/

/-- Decimal rendering of a natural number, modelling Python's `str(i)`. -/
def natDec (n : ℕ) : List Char :=
  if h : n < 10 then [Nat.digitChar n]
  else natDec (n / 10) ++ [Nat.digitChar (n % 10)]
termination_by n
decreasing_by
exact Nat.div_lt_self (by omega) (by omega)

/-- The six fractional digits of `k` (taken mod 10^6), most significant
first. -/
def sixFrac (k : ℕ) : List Char :=
  (List.range 6).map fun i => Nat.digitChar (k / 10 ^ (5 - i) % 10)

/-- Model of Python's `f"{x:.6f}"`. -/
noncomputable def fmt6 (x : ℝ) : List Char :=
  let n : ℤ := round (x * 1000000)
  (if n < 0 then ['-'] else []) ++ natDec (n.natAbs / 1000000) ++
    '.' :: sixFrac (n.natAbs % 1000000)

def headChars8 : List Char := "        a: ".data

def headChars12 : List Char := "            a: ".data

def sepChars : List Char := ", ".data

/-- One vertex data line (create_sphere_fbx.py line 187), without the final
newline character. -/
noncomputable def vertexLine (v : ℝ × ℝ × ℝ) : List Char :=
  headChars8 ++ fmt6 v.1 ++ sepChars ++ fmt6 v.2.1 ++ sepChars ++ fmt6 v.2.2 ++ [',']

/-- One index data line (create_sphere_fbx.py line 191). -/
def indexLine (t : ℕ × ℕ × ℕ) : List Char :=
  headChars8 ++ natDec t.1 ++ sepChars ++ natDec t.2.1 ++ sepChars ++ natDec t.2.2 ++ [',']

/-- One normal data line (create_sphere_fbx.py line 204; the normals block is
indented four spaces deeper than the vertex block). -/
noncomputable def normalLine (v : ℝ × ℝ × ℝ) : List Char :=
  headChars12 ++ fmt6 v.1 ++ sepChars ++ fmt6 v.2.1 ++ sepChars ++ fmt6 v.2.2 ++ [',']

/-- The count prefixes and data lines of the serialized geometry block
(create_sphere_fbx.py lines 185-206), in field order: vertex count prefix,
vertex lines, index count prefix, index lines, normals count prefix, normal
lines. -/
structure GeometryBlock where
  verticesDecl : ℕ
  vertexLines : List (List Char)
  indexDecl : ℕ
  indexLines : List (List Char)
  normalsDecl : ℕ
  normalLines : List (List Char)

/-- Embedding of the geometry-block serialization: `vertex_count` is
`len(vertices)//3` (line 41), the vertex prefix and normals prefix are
`vertex_count` (lines 185, 197), the index prefix is `index_count =
len(indices)` (lines 42, 189), and each loop steps through its flat list
three elements at a time. -/
noncomputable def serializeGeometry (vertices : List ℝ) (indices : List ℕ) : GeometryBlock :=
  ⟨vertices.length / 3,
   (chunk3 vertices).map vertexLine,
   indices.length,
   (chunk3 indices).map indexLine,
   vertices.length / 3,
   (chunk3 vertices).map (fun v => normalLine (normalize3 v))⟩

/-- The geometry block the program serializes for `generate_sphere` output
(create_sphere_fbx.py line 40 feeds lines 185-206). -/
noncomputable def sphereGeometry (radius : ℝ) (L N : ℕ) : GeometryBlock :=
  serializeGeometry (generate_sphere radius L N).1 (generate_sphere radius L N).2

theorem length_chunk3 {α : Type} : ∀ l : List α, (chunk3 l).length = l.length / 3
  | [] => by simp [chunk3]
  | [_] => by simp [chunk3]
  | [_, _] => by simp [chunk3]
  | a :: b :: c :: t => by
      have ih := length_chunk3 t
      simp only [chunk3, List.length_cons, ih]
      omega

/-- Claim C6, amended: the vertex and normals count prefixes equal their
numbers of emitted data lines, while the index count prefix equals the
number of emitted index values, which is three times the number of emitted
index lines (one triangle of three indices per line). -/
theorem spec_C6_count_prefixes (radius : ℝ) (L N : ℕ) (hL : 1 ≤ L) (hN : 1 ≤ N) :
    (sphereGeometry radius L N).verticesDecl = (sphereGeometry radius L N).vertexLines.length ∧
    (sphereGeometry radius L N).normalsDecl = (sphereGeometry radius L N).normalLines.length ∧
    (sphereGeometry radius L N).indexDecl = 3 * (sphereGeometry radius L N).indexLines.length := by
  have hi := length_generate_sphere_snd radius L N
  refine ⟨?_, ?_, ?_⟩ <;>
    simp only [sphereGeometry, serializeGeometry, List.length_map, length_chunk3]
  rw [hi]
  omega

/-- Witness for C6 (amended) at radius 1, L = 1, N = 1. -/
theorem spec_C6_count_prefixes_witness :
    (sphereGeometry 1 1 1).verticesDecl = (sphereGeometry 1 1 1).vertexLines.length ∧
    (sphereGeometry 1 1 1).normalsDecl = (sphereGeometry 1 1 1).normalLines.length ∧
    (sphereGeometry 1 1 1).indexDecl = 3 * (sphereGeometry 1 1 1).indexLines.length :=
  spec_C6_count_prefixes 1 1 1 (by omega) (by omega)

/-- Counterexample to claim C6 as stated: at radius 1, L = 1, N = 1 the
index array's declared count prefix is 6 (the number of index values) while
only 2 index lines are emitted, so the three prefix/line-count equalities
the claim asserts do not all hold. -/
theorem spec_C6_count_prefixes_cex :
    ¬ ((sphereGeometry 1 1 1).verticesDecl = (sphereGeometry 1 1 1).vertexLines.length ∧
       (sphereGeometry 1 1 1).indexDecl = (sphereGeometry 1 1 1).indexLines.length ∧
       (sphereGeometry 1 1 1).normalsDecl = (sphereGeometry 1 1 1).normalLines.length) := by
  intro h
  have h6 : (sphereGeometry 1 1 1).indexDecl = 6 := rfl
  have h2 : (sphereGeometry 1 1 1).indexLines.length = 2 := rfl
  have := h.2.1
  omega

/-! ### Formatting properties (claim C9) -/

/-- The string has a decimal point with exactly six characters after the
last one, all decimal digits. -/
def sixAfterDot (s : List Char) : Prop :=
  ∃ ip fp, s = ip ++ '.' :: fp ∧ fp.length = 6 ∧
    (∀ c ∈ fp, c.isDigit = true) ∧ '.' ∉ fp

theorem digitChar_isDigit {d : ℕ} (hd : d < 10) : (Nat.digitChar d).isDigit = true := by
  interval_cases d <;> rfl

theorem sixFrac_length (k : ℕ) : (sixFrac k).length = 6 := by
  simp [sixFrac]

theorem sixFrac_digits (k : ℕ) : ∀ c ∈ sixFrac k, c.isDigit = true := by
  intro c hc
  simp only [sixFrac, List.mem_map, List.mem_range] at hc
  obtain ⟨i, _, rfl⟩ := hc
  exact digitChar_isDigit (Nat.mod_lt _ (by norm_num))

theorem sixAfterDot_fmt6 (x : ℝ) : sixAfterDot (fmt6 x) := by
  refine ⟨(if round (x * 1000000) < 0 then ['-'] else []) ++
      natDec ((round (x * 1000000)).natAbs / 1000000),
    sixFrac ((round (x * 1000000)).natAbs % 1000000), ?_, sixFrac_length _,
    sixFrac_digits _, ?_⟩
  · simp [fmt6, List.append_assoc]
  · intro hdot
    have := sixFrac_digits ((round (x * 1000000)).natAbs % 1000000) _ hdot
    simp [Char.isDigit] at this

theorem natDec_facts : ∀ n : ℕ, natDec n ≠ [] ∧ ∀ c ∈ natDec n, c.isDigit = true := by
  intro n
  induction n using Nat.strong_induction_on with
  | _ n ih =>
    unfold natDec
    split
    · case _ h =>
        refine ⟨by simp, ?_⟩
        intro c hc
        simp only [List.mem_singleton] at hc
        subst hc
        exact digitChar_isDigit h
    · case _ h =>
        have hrec := ih (n / 10) (Nat.div_lt_self (by omega) (by omega))
        refine ⟨by simp, ?_⟩
        intro c hc
        rcases List.mem_append.mp hc with hc | hc
        · exact hrec.2 c hc
        · simp only [List.mem_singleton] at hc
          subst hc
          exact digitChar_isDigit (Nat.mod_lt _ (by norm_num))

theorem getLast?_append_comma {l : List Char} : (l ++ [',']).getLast? = some ',' :=
  List.getLast?_concat l

/-- Claim C9: in the serialized geometry block every float is rendered in
fixed-point form with exactly six digits after the decimal point, every index
is rendered as a plain decimal integer, each vertex/normal line carries
exactly one coordinate triple and each index line exactly one three-index
triangle, and every data line — including the last of each array — ends with
a trailing comma. -/
theorem spec_C9_formatting (radius : ℝ) (L N : ℕ) (hL : 1 ≤ L) (hN : 1 ≤ N) :
    (∀ l ∈ (sphereGeometry radius L N).vertexLines,
        ∃ v ∈ chunk3 (generate_sphere radius L N).1, l = vertexLine v) ∧
    (∀ l ∈ (sphereGeometry radius L N).indexLines,
        ∃ t ∈ chunk3 (generate_sphere radius L N).2, l = indexLine t) ∧
    (∀ l ∈ (sphereGeometry radius L N).normalLines,
        ∃ v ∈ chunk3 (generate_sphere radius L N).1, l = normalLine (normalize3 v)) ∧
    (∀ x : ℝ, sixAfterDot (fmt6 x)) ∧
    (∀ n : ℕ, natDec n ≠ [] ∧ ∀ c ∈ natDec n, c.isDigit = true) ∧
    (∀ l, (l ∈ (sphereGeometry radius L N).vertexLines ∨
           l ∈ (sphereGeometry radius L N).indexLines ∨
           l ∈ (sphereGeometry radius L N).normalLines) →
        l.getLast? = some ',') := by
  refine ⟨?_, ?_, ?_, sixAfterDot_fmt6, natDec_facts, ?_⟩
  · intro l hl
    simp only [sphereGeometry, serializeGeometry] at hl
    obtain ⟨v, hv, rfl⟩ := List.mem_map.mp hl
    exact ⟨v, hv, rfl⟩
  · intro l hl
    simp only [sphereGeometry, serializeGeometry] at hl
    obtain ⟨t, ht, rfl⟩ := List.mem_map.mp hl
    exact ⟨t, ht, rfl⟩
  · intro l hl
    simp only [sphereGeometry, serializeGeometry] at hl
    obtain ⟨v, hv, rfl⟩ := List.mem_map.mp hl
    exact ⟨v, hv, rfl⟩
  · intro l hl
    rcases hl with hl | hl | hl <;>
      simp only [sphereGeometry, serializeGeometry] at hl
    · obtain ⟨v, _, rfl⟩ := List.mem_map.mp hl
      exact getLast?_append_comma
    · obtain ⟨t, _, rfl⟩ := List.mem_map.mp hl
      exact getLast?_append_comma
    · obtain ⟨v, _, rfl⟩ := List.mem_map.mp hl
      exact getLast?_append_comma

/-- Witness for C9 at radius 1, L = 1, N = 1, instantiated at the data lines
of the vertex (0, 0), the first index triangle (0, 2, 1) and the value 1. -/
theorem spec_C9_formatting_witness :
    sixAfterDot (fmt6 (1 : ℝ)) ∧
    (vertexLine (vertexAt 1 1 1 0 0)).getLast? = some ',' ∧
    (indexLine (0, 2, 1)).getLast? = some ',' ∧
    (normalLine (normalize3 (vertexAt 1 1 1 0 0))).getLast? = some ',' := by
  have h := spec_C9_formatting 1 1 1 (by omega) (by omega)
  refine ⟨h.2.2.2.1 1, ?_, ?_, ?_⟩
  · exact h.2.2.2.2.2 _ (Or.inl (List.mem_map_of_mem _ (vertexAt_mem_chunk3 1 1 1)))
  · refine h.2.2.2.2.2 _ (Or.inr (Or.inl (List.mem_map_of_mem _ ?_)))
    show ((0 : ℕ), (2 : ℕ), (1 : ℕ)) ∈ chunk3 (generate_sphere 1 1 1).2
    decide
  · exact h.2.2.2.2.2 _ (Or.inr (Or.inr (List.mem_map_of_mem _ (vertexAt_mem_chunk3 1 1 1))))

/-! ### Error model (claims C7, C10)

A second embedding of `generate_sphere`, over Python ints (ℤ) for the
segment counts, that records the ZeroDivisionError Python raises in
`theta = lat * math.pi / latitude_segments` or
`phi = lon * 2 * math.pi / longitude_segments` when the corresponding
segment count is zero.  `range(n)` is empty for n ≤ 0, exactly as in
Python. -/

/-- Python's `range(n)` over ints: [0, n), empty when n ≤ 0. -/
def intRange (n : ℤ) : List ℤ :=
  (List.range n.toNat).map fun (i : ℕ) => (i : ℤ)

/-- Python float division with an int denominator: ZeroDivisionError when
the denominator is 0. -/
noncomputable def pyDivByInt (a : ℝ) (b : ℤ) : Except Unit ℝ :=
  if b = 0 then Except.error () else Except.ok (a / (b : ℝ))

def exceptOk {ε α : Type} : Except ε α → Bool
  | Except.ok _ => true
  | Except.error _ => false

/-- One iteration of the vertex loop of `generate_sphere` (one `lat` value),
in the error model. -/
noncomputable def vertexStepE (radius : ℝ) (latitude_segments longitude_segments : ℤ)
    (vs : List ℝ) (lat : ℤ) : Except Unit (List ℝ) := do
  let theta ← pyDivByInt ((lat : ℝ) * Real.pi) latitude_segments
  (intRange (longitude_segments + 1)).foldlM (fun vs2 (lon : ℤ) => do
    let phi ← pyDivByInt ((lon : ℝ) * 2 * Real.pi) longitude_segments
    pure (vs2 ++ [radius * Real.cos phi * Real.sin theta,
                  radius * Real.cos theta,
                  radius * Real.sin phi * Real.sin theta])) vs

/-- Error-sensitive embedding of `generate_sphere` (same source lines as
`generate_sphere` above, with the segment counts as Python ints). -/
noncomputable def generate_sphereE (radius : ℝ) (latitude_segments longitude_segments : ℤ) :
    Except Unit (List ℝ × List ℤ) := do
  let vertices ← (intRange (latitude_segments + 1)).foldlM
    (vertexStepE radius latitude_segments longitude_segments) []
  let indices := (intRange latitude_segments).foldl (fun idx (lat : ℤ) =>
    (intRange longitude_segments).foldl (fun idx2 (lon : ℤ) =>
      let first := lat * (longitude_segments + 1) + lon
      let second := first + longitude_segments + 1
      idx2 ++ [first, second, first + 1] ++ [second, second + 1, first + 1]) idx) []
  pure (vertices, indices)

theorem foldlM_ok {α β : Type} (f : β → α → Except Unit β) (g : β → α → β)
    (hf : ∀ b a, f b a = Except.ok (g b a)) :
    ∀ (l : List α) (b : β), l.foldlM f b = Except.ok (l.foldl g b) := by
  intro l
  induction l with
  | nil => intro b; rfl
  | cons x xs ih =>
      intro b
      rw [List.foldlM_cons, hf b x]
      exact ih (g b x)

theorem foldlM_error_head {α β : Type} (f : β → α → Except Unit β) (x : α)
    (xs : List α) (b : β) (hx : f b x = Except.error ()) :
    (x :: xs).foldlM f b = Except.error () := by
  rw [List.foldlM_cons, hx]
  rfl

theorem vertexStepE_N0 (radius : ℝ) (L : ℤ) (hL : L ≠ 0) (vs : List ℝ) (lat : ℤ) :
    vertexStepE radius L 0 vs lat = Except.error () := by
  unfold vertexStepE
  simp only [pyDivByInt, if_neg hL]
  rfl

theorem vertexStepE_ok (radius : ℝ) (L N : ℤ) (hL : L ≠ 0) (hN : N ≠ 0)
    (vs : List ℝ) (lat : ℤ) :
    vertexStepE radius L N vs lat =
      Except.ok ((intRange (N + 1)).foldl (fun vs2 (lon : ℤ) =>
        vs2 ++ [radius * Real.cos ((lon : ℝ) * 2 * Real.pi / (N : ℝ)) *
                  Real.sin ((lat : ℝ) * Real.pi / (L : ℝ)),
                radius * Real.cos ((lat : ℝ) * Real.pi / (L : ℝ)),
                radius * Real.sin ((lon : ℝ) * 2 * Real.pi / (N : ℝ)) *
                  Real.sin ((lat : ℝ) * Real.pi / (L : ℝ))]) vs) := by
  unfold vertexStepE
  simp only [pyDivByInt, if_neg hL, if_neg hN]
  exact foldlM_ok _ _ (fun b a => rfl) _ vs

theorem generate_sphereE_error (radius : ℝ) (L N : ℤ)
    (h : L = 0 ∨ (0 ≤ L ∧ N = 0)) :
    generate_sphereE radius L N = Except.error () := by
  rcases h with rfl | ⟨hL0, rfl⟩
  · rfl
  · rcases eq_or_lt_of_le hL0 with hL | hL
    · rw [← hL]
      rfl
    · obtain ⟨t, ht⟩ : ∃ t, intRange (L + 1) = 0 :: t := by
        unfold intRange
        have h2 : (L + 1).toNat = L.toNat + 1 := by omega
        rw [h2, List.range_succ_eq_map]
        refine ⟨List.map (fun (i : ℕ) => (i : ℤ)) (List.map Nat.succ (List.range L.toNat)), ?_⟩
        rw [List.map_cons]
        simp
      unfold generate_sphereE
      rw [ht, foldlM_error_head _ _ _ _ (vertexStepE_N0 radius L hL.ne' [] 0)]
      rfl

theorem generate_sphereE_isOk (radius : ℝ) (L N : ℤ)
    (hL : L ≠ 0) (hN : N ≠ 0 ∨ L < 0) :
    exceptOk (generate_sphereE radius L N) = true := by
  by_cases hneg : L < 0
  · have hempty : intRange (L + 1) = [] := by
      unfold intRange
      have h2 : (L + 1).toNat = 0 := by omega
      rw [h2]
      rfl
    unfold generate_sphereE
    rw [hempty]
    rfl
  · have hN' : N ≠ 0 := by tauto
    unfold generate_sphereE
    rw [foldlM_ok _ _ (fun b a => vertexStepE_ok radius L N hL hN' b a) _ []]
    rfl

/-- Claim C7, amended: only a zero segment count makes the program fail fast
(a ZeroDivisionError in the theta computation when latitude_segments = 0, or
in the phi computation when longitude_segments = 0 and the latitude loop
runs); every other parameter combination — including non-positive radius and
negative segment counts — returns without signaling any error, producing
degenerate (possibly empty) geometry. -/
theorem spec_C7_validation (radius : ℝ) (L N : ℤ) :
    ((L = 0 ∨ (0 ≤ L ∧ N = 0)) → exceptOk (generate_sphereE radius L N) = false) ∧
    ((L ≠ 0 ∧ (N ≠ 0 ∨ L < 0)) → exceptOk (generate_sphereE radius L N) = true) := by
  constructor
  · intro h
    rw [generate_sphereE_error radius L N h]
    rfl
  · intro h
    exact generate_sphereE_isOk radius L N h.1 h.2

/-- Witness for C7 (amended): L = 0 errors out; a negative radius with valid
segment counts does not. -/
theorem spec_C7_validation_witness :
    exceptOk (generate_sphereE 1 0 5) = false ∧
    exceptOk (generate_sphereE (-2) 3 4) = true :=
  ⟨(spec_C7_validation 1 0 5).1 (Or.inl rfl),
   (spec_C7_validation (-2) 3 4).2 ⟨by norm_num, Or.inl (by norm_num)⟩⟩

/-- Counterexample to claim C7 as stated: with the invalid parameter
radius = -1 (non-positive) and valid segment counts 1, 1, the program does
not fail fast: generation succeeds with no error and returns a full
12-coordinate vertex list. -/
theorem spec_C7_validation_cex :
    exceptOk (generate_sphereE (-1) 1 1) = true ∧
    (generate_sphereE (-1) 1 1).toOption.map (fun p => p.1.length) = some 12 := by
  constructor
  · rfl
  · rfl

/-- Claim C10: calling `generate_sphere` with latitude_segments = 0 or
longitude_segments = 0 (segment counts being nonnegative) raises a
division-by-zero error, in the theta or phi computation respectively, before
any geometry is returned; with both counts at least 1 — the spec's
precondition — both divisions are well-defined and no error occurs. -/
theorem spec_C10_zero_segments (radius : ℝ) (L N : ℤ) (hL : 0 ≤ L) (hN : 0 ≤ N) :
    ((L = 0 ∨ N = 0) → generate_sphereE radius L N = Except.error ()) ∧
    (1 ≤ L → 1 ≤ N → exceptOk (generate_sphereE radius L N) = true) := by
  constructor
  · intro h
    apply generate_sphereE_error
    rcases h with h | h
    · exact Or.inl h
    · exact Or.inr ⟨hL, h⟩
  · intro h1 h2
    exact generate_sphereE_isOk radius L N (by omega) (Or.inl (by omega))

/-- Witness for C10: segment counts (4, 0) raise, (2, 2) succeed. -/
theorem spec_C10_zero_segments_witness :
    generate_sphereE 1 4 0 = Except.error () ∧
    exceptOk (generate_sphereE 1 2 2) = true :=
  ⟨(spec_C10_zero_segments 1 4 0 (by norm_num) (by norm_num)).1 (Or.inr rfl),
   (spec_C10_zero_segments 1 2 2 (by norm_num) (by norm_num)).2 (by norm_num) (by norm_num)⟩
